import Mathlib

/-!
Shallow embedding of `src/gauthctl.c` from google-authenticator-wrappers.

The filesystem is an association list from paths to file objects; fallible
system calls whose outcome is not determined by the filesystem state
(fstat, unlink, exclusive create, per-chunk read/write results, rename,
malloc, PAM calls) are driven by explicit oracle values passed in, so that
every execution path of the C code corresponds to some oracle choice.
-/

namespace Gauthctl

/-- A file: its byte content, owner uid, permission bits, and whether the
final path component is a symbolic link. -/
structure FileObj where
  content : List Nat
  uid : Nat
  mode : Nat
  isSym : Bool
deriving DecidableEq, Repr

/-- Filesystem: association list from absolute path to file object. -/
abbrev FS := List (String × FileObj)

/-- Look a path up in the filesystem. -/
def fsGet : FS → String → Option FileObj
  | [], _ => none
  | e :: rest, p => if e.1 = p then some e.2 else fsGet rest p

/-- Remove a path from the filesystem (models a successful unlink). -/
def fsErase : FS → String → FS
  | [], _ => []
  | e :: rest, p => if e.1 = p then fsErase rest p else e :: fsErase rest p

/-- Create or replace the file at a path. -/
def fsSet (fs : FS) (p : String) (f : FileObj) : FS :=
  (p, f) :: fsErase fs p

/-- Outcome of one iteration of the copy loop in `enable`:
`read` returns -1 (`readErr`), `write` returns -1 (`writeErr`), or both
calls return counts (`step rc wc`, each clamped to its legal range: the
read count to `1 ≤ rd ≤ min 4096 remaining` as POSIX guarantees for a
regular file with data left, the write count to `0 ≤ wr ≤ rd`). -/
inductive CopyStep where
  | readErr : CopyStep
  | writeErr : CopyStep
  | step (rc : Nat) (wc : Nat) : CopyStep
deriving DecidableEq, Repr

/-- Clamp an oracle read count to the range POSIX allows. -/
def readCount (remLen rc : Nat) : Nat := min (min 4096 remLen) (max 1 rc)

/-- The copy loop of `enable` (gauthctl.c lines 217-244): read up to 4096
bytes, stop at end of file, fail if read or write returns -1; the write
result is compared against -1 only, so a short write is not detected and
the loop continues. Returns the success flag and the bytes that reached
the staging file. Oracle entries past the end of the list mean the
corresponding iterations succeed in full. Fuel-indexed so that the
recursion is structural. -/
def copyGo : Nat → List CopyStep → List Nat → List Nat → Bool × List Nat
  | _, _, [], out => (true, out)
  | 0, _, _ :: _, out => (true, out)
  | fuel + 1, [], b :: bs, out =>
      copyGo fuel [] ((b :: bs).drop 4096) (out ++ (b :: bs).take 4096)
  | _ + 1, .readErr :: _, _ :: _, out => (false, out)
  | _ + 1, .writeErr :: _, _ :: _, out => (false, out)
  | fuel + 1, .step rc wc :: rest, b :: bs, out =>
      copyGo fuel rest ((b :: bs).drop (readCount (b :: bs).length rc))
        (out ++ ((b :: bs).take (readCount (b :: bs).length rc)).take
          (min wc (readCount (b :: bs).length rc)))

/-- The copy loop applied to the whole candidate content: every
iteration consumes at least one byte of the remaining input, so
`content.length` units of fuel always suffice (the zero-fuel case with
input left is unreachable). -/
def copyLoop (steps : List CopyStep) (content : List Nat) : Bool × List Nat :=
  copyGo content.length steps content []

/-- Build-time state directory (CMAKE default `/var/lib/gauth`). -/
def GAUTH_STATEDIR : String := "/var/lib/gauth"

/-- The state path string `get_state_path` builds: `GAUTH_STATEDIR "/" username`
(gauthctl.c line 139). -/
def statePathStr (username : String) : String :=
  GAUTH_STATEDIR ++ "/" ++ username

/-- Buffer size `get_state_path` allocates (gauthctl.c lines 134-135):
`sizeof GAUTH_STATEDIR + strlen(username) + 1`, where the `sizeof` of the
string literal counts its terminating NUL. -/
def statePathBufSize (username : String) : Nat :=
  (GAUTH_STATEDIR.length + 1) + username.length + 1

/-- `get_state_path` (gauthctl.c lines 132-141): allocate a buffer and
print `"%s/%s"` into it; returns NULL exactly when malloc fails. The
username is never inspected. -/
def get_state_path (mallocOk : Bool) (username : String) : Option String :=
  if mallocOk then some (statePathStr username) else none

/-- The staging path `enable` builds: `state_path ++ ".new"`
(gauthctl.c line 163). -/
def tmpName (state_path : String) : String := state_path ++ ".new"

/-- Bytes `enable` allocates for the staging path (gauthctl.c line 157):
`strlen(state_path) + 4`. -/
def tmpBufAlloc (state_path : String) : Nat := state_path.length + 4

/-- Bytes `sprintf(tmp_buf, "%s.new", state_path)` actually writes
(gauthctl.c line 163): the staging path string plus its NUL terminator. -/
def tmpBufNeeded (state_path : String) : Nat := (tmpName state_path).length + 1

/-- Mode of the staging file: `open(tmp_buf, O_WRONLY|O_CREAT|O_EXCL, 0600)`
(gauthctl.c line 208); umask 077 clears no bit of 0600. -/
def stagingMode : Nat := 0o600

/-- Oracle for the system calls of `enable` whose outcome is not determined
by the filesystem contents. -/
structure EnableOracle where
  mallocOk : Bool
  fstatOk : Bool
  unlinkOk : Bool
  createOk : Bool
  copySteps : List CopyStep
  renameOk : Bool
deriving DecidableEq, Repr

/-- `enable` (gauthctl.c lines 149-261), step by step:
allocate the staging name; `open(path, O_RDONLY|O_NOFOLLOW)` (fails when
the file is absent or its final component is a symlink); `fstat` the open
descriptor; reject `st_uid != getuid()`; reject `(st_mode & 077) != 0`;
pre-unlink the staging path treating ENOENT as success; create the staging
file with `O_CREAT|O_EXCL` mode 0600; run the copy loop; `rename` the
staging file onto the state path. Every failure returns false; a failure
after the staging file was created leaves it behind with whatever content
was written. Returns the success flag and the resulting filesystem. -/
def enable (o : EnableOracle) (uid euid : Nat) (fs : FS)
    (state_path path : String) : Bool × FS :=
  if !o.mallocOk then (false, fs)
  else
    match fsGet fs path with
    | none => (false, fs)
    | some f =>
      if f.isSym then (false, fs)
      else if !o.fstatOk then (false, fs)
      else if f.uid != uid then (false, fs)
      else if f.mode &&& 63 != 0 then (false, fs)
      else
        match
          (match fsGet fs (tmpName state_path) with
           | none => some fs
           | some _ =>
             if o.unlinkOk then some (fsErase fs (tmpName state_path)) else none)
        with
        | none => (false, fs)
        | some fs1 =>
          if (fsGet fs1 (tmpName state_path)).isSome then (false, fs1)
          else if !o.createOk then (false, fs1)
          else
            let res := copyLoop o.copySteps f.content
            let fs2 := fsSet fs1 (tmpName state_path) ⟨res.2, euid, stagingMode, false⟩
            if !res.1 then (false, fs2)
            else if !o.renameOk then (false, fs2)
            else
              (true,
               fsSet (fsErase fs2 (tmpName state_path)) state_path
                 ⟨res.2, euid, stagingMode, false⟩)

/-- `disable` (gauthctl.c lines 268-279): `unlink(state_path)`, treating
ENOENT as success; `unlinkOk` is the oracle for a removal attempt on an
existing file (false models EACCES, EIO, ...). -/
def disable (unlinkOk : Bool) (fs : FS) (state_path : String) : Bool × FS :=
  match fsGet fs state_path with
  | none => (true, fs)
  | some _ => if unlinkOk then (true, fsErase fs state_path) else (false, fs)

/-- Return codes of the four PAM calls made by `authenticate`;
`PAM_SUCCESS` is 0. -/
structure PamOracle where
  startRet : Int
  authRet : Int
  acctRet : Int
  endRet : Int
deriving DecidableEq, Repr

/-- The four steps of the authentication gate, in protocol order. -/
inductive PamStep where
  | start : PamStep
  | auth : PamStep
  | acct : PamStep
  | finish : PamStep
deriving DecidableEq, Repr

/-- The full step sequence `pam_start`, `pam_authenticate`,
`pam_acct_mgmt`, `pam_end`. -/
def pamSeq : List PamStep := [.start, .auth, .acct, .finish]

/-- `authenticate` (gauthctl.c lines 82-125): run the four PAM calls in
order, stopping at the first non-success return; `pam_end` failing makes
the whole gate fail even after successful credential and account checks.
Returns the gate outcome and the list of steps executed, in order. -/
def authenticate (o : PamOracle) : Bool × List PamStep :=
  if o.startRet != 0 then (false, [.start])
  else if o.authRet != 0 then (false, [.start, .auth])
  else if o.acctRet != 0 then (false, [.start, .auth, .acct])
  else if o.endRet != 0 then (false, pamSeq)
  else (true, pamSeq)

/-- One option token produced by `getopt_long` (gauthctl.c lines 290-308):
`-e <arg>`, `-d`, `-h`, `-V`, or anything unrecognized (`?`). -/
inductive Opt where
  | oe (path : String) : Opt
  | od : Opt
  | oh : Opt
  | oV : Opt
  | obad : Opt
deriving DecidableEq, Repr

/-- The `enum command` of gauthctl.c lines 37-43, in declaration order. -/
inductive Command where
  | CMD_NULL : Command
  | CMD_ENABLE : Command
  | CMD_DISABLE : Command
  | CMD_NEXT : Command
deriving DecidableEq, Repr

/-- Numeric value of each enumerator (C gives consecutive values from 0). -/
def Command.toNat : Command → Nat
  | .CMD_NULL => 0
  | .CMD_ENABLE => 1
  | .CMD_DISABLE => 2
  | .CMD_NEXT => 3

/-- Result of the option loop: it either runs to completion with the final
`cmd` and `path` values, or returns from inside the loop (`-h`, `-V`, or
an unrecognized option) with an exit code; `info` marks the help/version
returns. -/
inductive ParseOut where
  | proceed (cmd : Command) (path : Option String) : ParseOut
  | earlyExit (code : Nat) (info : Bool) : ParseOut
deriving DecidableEq, Repr

/-- The `getopt_long` loop of `main` (gauthctl.c lines 290-309): each
`-e`/`-d` overwrites `cmd` (and `-e` also `path`); `-h` returns
`usage(argv0, true)` = 0, `-V` prints the version and returns 0, an
unrecognized option returns `usage(argv0, false)` = 1. -/
def parseOpts : List Opt → Command → Option String → ParseOut
  | [], cmd, p => .proceed cmd p
  | .oe s :: rest, _, _ => parseOpts rest .CMD_ENABLE (some s)
  | .od :: rest, _, p => parseOpts rest .CMD_DISABLE p
  | .oh :: _, _, _ => .earlyExit 0 true
  | .oV :: _, _, _ => .earlyExit 0 true
  | .obad :: _, _, _ => .earlyExit 1 false

/-- Everything one invocation of the program depends on: the parsed
option tokens, whether positional arguments remain (`optind != argc`),
the `getpwuid(getuid())` result, the malloc oracle for `get_state_path`,
the PAM return codes, the oracles for `enable` and `disable`, the real
and effective uids, and the initial filesystem. -/
structure Env where
  opts : List Opt
  extraArgs : Bool
  user : Option String
  spMallocOk : Bool
  pam : PamOracle
  eo : EnableOracle
  unlinkOk : Bool
  uid : Nat
  euid : Nat
  fs : FS

/-- Observable outcome of one invocation of `main`: process exit code,
final filesystem, whether the exit came from a help/version return,
the gate outcome if `authenticate` ran, the command at the dispatch
switch if it was reached, the value of the asserted condition
`cmd > CMD_NULL && cmd < CMD_NEXT` there, whether the
`assert(not_reached)` branch ran, whether `ret` was assigned, and which
of the two operations were invoked. -/
structure MainOut where
  exitCode : Nat
  fs : FS
  infoExit : Bool
  authRan : Option Bool
  dispatched : Option Command
  assertOk : Bool
  notReachedHit : Bool
  retAssigned : Bool
  enableCalled : Bool
  disableCalled : Bool
deriving DecidableEq, Repr

/-- Outcome of the paths of `main` that end before the dispatch switch. -/
def earlyOut (code : Nat) (fs : FS) (info : Bool) (auth : Option Bool) : MainOut :=
  ⟨code, fs, info, auth, none, true, false, false, false, false⟩

/-- `main` (gauthctl.c lines 281-350): run the option loop; reject
`cmd == CMD_NULL` or leftover positional arguments via `usage` (exit 1);
resolve the username (exit 1 on failure); build the state path (exit 1 on
malloc failure); run the authentication gate (exit 1 on failure); then
`assert(cmd > CMD_NULL && cmd < CMD_NEXT)` and dispatch on `cmd`,
assigning `ret` in the `CMD_ENABLE` and `CMD_DISABLE` branches; exit
`ret ? 0 : 1`. -/
def main (env : Env) : MainOut :=
  match parseOpts env.opts .CMD_NULL none with
  | .earlyExit c info => earlyOut c env.fs info none
  | .proceed cmd pathOpt =>
    if cmd = .CMD_NULL ∨ env.extraArgs = true then earlyOut 1 env.fs false none
    else
      match env.user with
      | none => earlyOut 1 env.fs false none
      | some username =>
        match get_state_path env.spMallocOk username with
        | none => earlyOut 1 env.fs false none
        | some state_path =>
          if (authenticate env.pam).1 = false then
            earlyOut 1 env.fs false (some false)
          else
            match cmd with
            | .CMD_ENABLE =>
              let r := enable env.eo env.uid env.euid env.fs state_path
                (pathOpt.getD "")
              ⟨if r.1 then 0 else 1, r.2, false, some true, some .CMD_ENABLE,
               decide (0 < Command.toNat .CMD_ENABLE ∧ Command.toNat .CMD_ENABLE < 3),
               false, true, true, false⟩
            | .CMD_DISABLE =>
              let r := disable env.unlinkOk env.fs state_path
              ⟨if r.1 then 0 else 1, r.2, false, some true, some .CMD_DISABLE,
               decide (0 < Command.toNat .CMD_DISABLE ∧ Command.toNat .CMD_DISABLE < 3),
               false, true, false, true⟩
            | .CMD_NULL =>
              ⟨1, env.fs, false, some true, some .CMD_NULL,
               decide (0 < Command.toNat .CMD_NULL ∧ Command.toNat .CMD_NULL < 3),
               true, false, false, false⟩
            | .CMD_NEXT =>
              ⟨1, env.fs, false, some true, some .CMD_NEXT,
               decide (0 < Command.toNat .CMD_NEXT ∧ Command.toNat .CMD_NEXT < 3),
               true, false, false, false⟩

/-! Concrete fixtures used to instantiate the theorems. -/

/-- Oracle on which every system call succeeds in full. -/
def okOracle : EnableOracle := ⟨true, true, true, true, [], true⟩

/-- Oracle whose first copy iteration hits a read error. -/
def readErrOracle : EnableOracle := ⟨true, true, true, true, [.readErr], true⟩

/-- Oracle whose first write is short: it writes 1 byte of the chunk and
returns 1, which the code does not distinguish from a full write. -/
def shortWriteOracle : EnableOracle := ⟨true, true, true, true, [.step 4096 1], true⟩

/-- A candidate file owned by uid 1000 with mode 0600. -/
def roFile : FileObj := ⟨[5], 1000, 0o600, false⟩

/-- A two-byte candidate file owned by uid 1000 with mode 0600. -/
def twoByteFile : FileObj := ⟨[7, 8], 1000, 0o600, false⟩

/-- A candidate whose final path component is a symlink. -/
def symFile : FileObj := ⟨[1], 1000, 0o600, true⟩

/-- An installed secret file (owned by the service identity, mode 0600). -/
def secretFile : FileObj := ⟨[9, 9], 0, 0o600, false⟩

/-- Filesystem holding one good candidate. -/
def fsC4 : FS := [("/tmp/cand", roFile)]

/-- Filesystem holding one two-byte candidate. -/
def fsC2 : FS := [("/tmp/cand2", twoByteFile)]

/-- Filesystem after `enable` fails mid-copy on `fsC4`: the staging file
is left behind empty, the rest is untouched. -/
def fsC4out : FS :=
  [(tmpName (statePathStr "alice"), ⟨[], 0, stagingMode, false⟩), ("/tmp/cand", roFile)]

/-- Invocation fixture: `--disable` for alice, gate succeeds, empty
filesystem. -/
def disableEnv : Env :=
  ⟨[.od], false, some "alice", true, ⟨0, 0, 0, 0⟩, okOracle, true, 1000, 0, []⟩

/-- Invocation fixture: `--disable` for alice, credential rejected. -/
def authFailEnv : Env :=
  ⟨[.od], false, some "alice", true, ⟨0, 7, 0, 0⟩, okOracle, true, 1000, 0, []⟩

/-- Invocation fixture: `--help`. -/
def helpEnv : Env :=
  ⟨[.oh], false, some "alice", true, ⟨0, 0, 0, 0⟩, okOracle, true, 1000, 0, []⟩

/-! Helper lemmas about the filesystem model. -/

theorem fsGet_fsErase_self (fs : FS) (p : String) : fsGet (fsErase fs p) p = none := by
  induction fs with
  | nil => rfl
  | cons e rest ih =>
    by_cases he : e.1 = p
    · simp [fsErase, he, ih]
    · simp [fsErase, fsGet, he, ih]

theorem fsGet_fsErase_ne (fs : FS) (p q : String) (h : p ≠ q) :
    fsGet (fsErase fs q) p = fsGet fs p := by
  induction fs with
  | nil => rfl
  | cons e rest ih =>
    by_cases he : e.1 = q
    · have : e.1 ≠ p := by
        intro hp
        exact h (hp ▸ he ▸ rfl)
      simp [fsErase, fsGet, he, this, ih, h, Ne.symm h]
    · by_cases hp : e.1 = p
      · simp [fsErase, fsGet, he, hp, h, Ne.symm h]
      · simp [fsErase, fsGet, he, hp, ih, h, Ne.symm h]

theorem fsGet_fsSet_self (fs : FS) (p : String) (f : FileObj) :
    fsGet (fsSet fs p f) p = some f := by
  simp [fsSet, fsGet]

theorem fsGet_fsSet_ne (fs : FS) (p q : String) (f : FileObj) (h : p ≠ q) :
    fsGet (fsSet fs q f) p = fsGet fs p := by
  have : q ≠ p := fun hq => h hq.symm
  simp [fsSet, fsGet, this, fsGet_fsErase_ne fs p q h]

theorem tmpName_ne (sp : String) : tmpName sp ≠ sp := by
  intro h
  have h2 := congrArg String.length h
  rw [tmpName, String.length_append] at h2
  have h4 : (".new" : String).length = 4 := rfl
  omega

/-- The option loop, started at `CMD_NULL`, completes only with `CMD_NULL`,
`CMD_ENABLE` or `CMD_DISABLE`: no case assigns any other enumerator. -/
theorem parseOpts_proceed (opts : List Opt) :
    ∀ (c0 : Command) (p0 : Option String) (cmd : Command) (p : Option String),
      parseOpts opts c0 p0 = .proceed cmd p →
      cmd = c0 ∨ cmd = .CMD_ENABLE ∨ cmd = .CMD_DISABLE := by
  induction opts with
  | nil =>
    intro c0 p0 cmd p h
    simp [parseOpts] at h
    exact Or.inl h.1.symm
  | cons o rest ih =>
    intro c0 p0 cmd p h
    cases o with
    | oe s =>
      simp only [parseOpts] at h
      rcases ih _ _ _ _ h with h1 | h1 | h1 <;> simp [h1]
    | od =>
      simp only [parseOpts] at h
      rcases ih _ _ _ _ h with h1 | h1 | h1 <;> simp [h1]
    | oh => simp [parseOpts] at h
    | oV => simp [parseOpts] at h
    | obad => simp [parseOpts] at h

/-- The option loop returns early only with exit code 0 for help/version
or exit code 1 for an unrecognized option. -/
theorem parseOpts_earlyExit (opts : List Opt) :
    ∀ (c0 : Command) (p0 : Option String) (code : Nat) (info : Bool),
      parseOpts opts c0 p0 = .earlyExit code info →
      (code = 0 ∧ info = true) ∨ (code = 1 ∧ info = false) := by
  induction opts with
  | nil => intro c0 p0 code info h; simp [parseOpts] at h
  | cons o rest ih =>
    intro c0 p0 code info h
    cases o with
    | oe s => exact ih _ _ _ _ h
    | od => exact ih _ _ _ _ h
    | oh =>
      simp [parseOpts] at h
      exact Or.inl ⟨h.1.symm, h.2⟩
    | oV =>
      simp [parseOpts] at h
      exact Or.inl ⟨h.1.symm, h.2⟩
    | obad =>
      simp [parseOpts] at h
      exact Or.inr ⟨h.1.symm, h.2⟩

/-- Master case analysis of one invocation of `main`: the
`assert(not_reached)` branch never runs; each operation is invoked exactly
when its command was dispatched; a command is dispatched only after the
gate succeeded, with the asserted range condition true and `ret` assigned;
if no command is dispatched the filesystem is untouched and the exit code
is 1 except for the help/version returns; and a failed gate forces the
exit-1 outcome with nothing touched. -/
theorem main_cases (env : Env) :
    (main env).notReachedHit = false
  ∧ ((main env).enableCalled = true ↔ (main env).dispatched = some .CMD_ENABLE)
  ∧ ((main env).disableCalled = true ↔ (main env).dispatched = some .CMD_DISABLE)
  ∧ (∀ c, (main env).dispatched = some c →
      (c = .CMD_ENABLE ∨ c = .CMD_DISABLE) ∧ (main env).assertOk = true
      ∧ (main env).retAssigned = true ∧ (main env).authRan = some true)
  ∧ ((main env).dispatched = none →
      (main env).fs = env.fs ∧ (main env).enableCalled = false
      ∧ (main env).disableCalled = false
      ∧ ((main env).exitCode = 1 ∨ ((main env).exitCode = 0 ∧ (main env).infoExit = true)))
  ∧ ((main env).authRan = some false → main env = earlyOut 1 env.fs false (some false)) := by
  cases hp : parseOpts env.opts .CMD_NULL none with
  | earlyExit c info =>
    rcases parseOpts_earlyExit _ _ _ _ _ hp with ⟨h0, hi⟩ | ⟨h0, hi⟩ <;>
      subst h0 <;> subst hi <;> simp [main, hp, earlyOut]
  | proceed cmd pathOpt =>
    rcases parseOpts_proceed _ _ _ _ _ hp with hc | hc | hc <;> subst hc
    · simp [main, hp, earlyOut]
    all_goals
      cases hx : env.extraArgs
      case true => simp [main, hp, hx, earlyOut]
      case false =>
        cases hu : env.user with
        | none => simp [main, hp, hx, hu, earlyOut]
        | some username =>
          cases hm : env.spMallocOk with
          | false => simp [main, hp, hx, hu, hm, earlyOut, get_state_path]
          | true =>
            by_cases ha : (authenticate env.pam).1 = false
            · simp [main, hp, hx, hu, hm, ha, earlyOut, get_state_path]
            · simp [main, hp, hx, hu, hm, ha, earlyOut, get_state_path]
              decide

/-- On every failing path of `enable` the state path's entry is exactly
what it was: failures before the staging step return the filesystem
unchanged, and the later ones touch only the staging path, which differs
from the state path. -/
theorem enable_false_state (o : EnableOracle) (uid euid : Nat) (fs : FS)
    (sp path : String) :
    (enable o uid euid fs sp path).1 = false →
    fsGet (enable o uid euid fs sp path).2 sp = fsGet fs sp := by
  have hne : sp ≠ tmpName sp := fun h => tmpName_ne sp h.symm
  cases hm : o.mallocOk
  · simp [enable, hm]
  · cases hpth : fsGet fs path with
    | none => simp [enable, hm, hpth]
    | some f =>
      cases hs : f.isSym
      case true => simp [enable, hm, hpth, hs]
      case false =>
        cases hst : o.fstatOk
        case false => simp [enable, hm, hpth, hs, hst]
        case true =>
          by_cases hu : f.uid = uid
          case neg => simp [enable, hm, hpth, hs, hst, hu]
          case pos =>
            by_cases hmd : f.mode &&& 63 = 0
            case neg => simp [enable, hm, hpth, hs, hst, hu, hmd]
            case pos =>
              cases htmp : fsGet fs (tmpName sp) with
              | some g =>
                cases hul : o.unlinkOk
                case false => simp [enable, hm, hpth, hs, hst, hu, hmd, htmp, hul]
                case true =>
                  cases hcr : o.createOk
                  case false =>
                    simp [enable, hm, hpth, hs, hst, hu, hmd, htmp, hul, hcr,
                      fsGet_fsErase_self, fsGet_fsErase_ne fs sp (tmpName sp) hne]
                  case true =>
                    cases hcp : (copyLoop o.copySteps f.content).1
                    case false =>
                      simp [enable, hm, hpth, hs, hst, hu, hmd, htmp, hul, hcr, hcp,
                        fsGet_fsErase_self, fsGet_fsSet_ne, hne,
                        fsGet_fsErase_ne fs sp (tmpName sp) hne]
                    case true =>
                      cases hrn : o.renameOk
                      case false =>
                        simp [enable, hm, hpth, hs, hst, hu, hmd, htmp, hul, hcr,
                          hcp, hrn, fsGet_fsErase_self, fsGet_fsSet_ne, hne,
                          fsGet_fsErase_ne fs sp (tmpName sp) hne]
                      case true =>
                        simp [enable, hm, hpth, hs, hst, hu, hmd, htmp, hul, hcr,
                          hcp, hrn, fsGet_fsErase_self]
              | none =>
                cases hcr : o.createOk
                case false => simp [enable, hm, hpth, hs, hst, hu, hmd, htmp, hcr]
                case true =>
                  cases hcp : (copyLoop o.copySteps f.content).1
                  case false =>
                    simp [enable, hm, hpth, hs, hst, hu, hmd, htmp, hcr, hcp,
                      fsGet_fsSet_ne, hne]
                  case true =>
                    cases hrn : o.renameOk
                    case false =>
                      simp [enable, hm, hpth, hs, hst, hu, hmd, htmp, hcr, hcp,
                        hrn, fsGet_fsSet_ne, hne]
                    case true =>
                      simp [enable, hm, hpth, hs, hst, hu, hmd, htmp, hcr, hcp, hrn]

/-- `enable` succeeds only when the rename step ran and succeeded, and
then only after the copy loop completed without a read or write error. -/
theorem enable_true_shape (o : EnableOracle) (uid euid : Nat) (fs : FS)
    (sp path : String) :
    (enable o uid euid fs sp path).1 = true →
    o.renameOk = true ∧ ∀ f, fsGet fs path = some f →
      (copyLoop o.copySteps f.content).1 = true := by
  cases hm : o.mallocOk
  · simp [enable, hm]
  · cases hpth : fsGet fs path with
    | none => simp [enable, hm, hpth]
    | some f =>
      cases hs : f.isSym
      case true => simp [enable, hm, hpth, hs]
      case false =>
        cases hst : o.fstatOk
        case false => simp [enable, hm, hpth, hs, hst]
        case true =>
          by_cases hu : f.uid = uid
          case neg => simp [enable, hm, hpth, hs, hst, hu]
          case pos =>
            by_cases hmd : f.mode &&& 63 = 0
            case neg => simp [enable, hm, hpth, hs, hst, hu, hmd]
            case pos =>
              cases htmp : fsGet fs (tmpName sp) with
              | some g =>
                cases hul : o.unlinkOk
                case false => simp [enable, hm, hpth, hs, hst, hu, hmd, htmp, hul]
                case true =>
                  cases hcr : o.createOk
                  case false =>
                    simp [enable, hm, hpth, hs, hst, hu, hmd, htmp, hul, hcr,
                      fsGet_fsErase_self]
                  case true =>
                    cases hcp : (copyLoop o.copySteps f.content).1
                    case false =>
                      simp [enable, hm, hpth, hs, hst, hu, hmd, htmp, hul, hcr, hcp,
                        fsGet_fsErase_self]
                    case true =>
                      cases hrn : o.renameOk
                      case false =>
                        simp [enable, hm, hpth, hs, hst, hu, hmd, htmp, hul, hcr, hcp,
                          hrn, fsGet_fsErase_self]
                      case true =>
                        simp [enable, hm, hpth, hs, hst, hu, hmd, htmp, hul, hcr, hcp,
                          hrn, fsGet_fsErase_self]
              | none =>
                cases hcr : o.createOk
                case false => simp [enable, hm, hpth, hs, hst, hu, hmd, htmp, hcr]
                case true =>
                  cases hcp : (copyLoop o.copySteps f.content).1
                  case false =>
                    simp [enable, hm, hpth, hs, hst, hu, hmd, htmp, hcr, hcp]
                  case true =>
                    cases hrn : o.renameOk
                    case false => simp [enable, hm, hpth, hs, hst, hu, hmd, htmp, hcr, hcp, hrn]
                    case true => simp [enable, hm, hpth, hs, hst, hu, hmd, htmp, hcr, hcp, hrn]

/-- C1: if the authentication gate ran and returned failure, the
invocation exits with status 1, the filesystem is exactly as it was,
no command is dispatched, and neither `enable` nor `disable` is
invoked. -/
theorem auth_failure_blocks_mutation (env : Env)
    (h : (main env).authRan = some false) :
    (main env).exitCode = 1 ∧ (main env).fs = env.fs
  ∧ (main env).enableCalled = false ∧ (main env).disableCalled = false
  ∧ (main env).dispatched = none := by
  have hm := (main_cases env).2.2.2.2.2 h
  rw [hm]
  simp [earlyOut]

/-- C1 witness: a `--disable` invocation whose credential is rejected
(second PAM call returns 7) mutates nothing and exits 1. -/
theorem auth_failure_blocks_mutation_witness :
    (main authFailEnv).exitCode = 1 ∧ (main authFailEnv).fs = authFailEnv.fs
  ∧ (main authFailEnv).enableCalled = false
  ∧ (main authFailEnv).disableCalled = false
  ∧ (main authFailEnv).dispatched = none :=
  auth_failure_blocks_mutation authFailEnv (by decide)

/-- C9 counterexample: a `--help` invocation selects neither of the two
state-mutating actions, is well-formed, performs no state mutation — and
exits with status 0, not with failure status as the claim requires. -/
theorem help_no_action_exits_zero :
    (main helpEnv).dispatched = none ∧ (main helpEnv).enableCalled = false
  ∧ (main helpEnv).disableCalled = false ∧ (main helpEnv).fs = helpEnv.fs
  ∧ (main helpEnv).exitCode = 0 ∧ ¬(main helpEnv).exitCode = 1 := by decide

/-- C9 (amended): each invocation dispatches at most one of the two
mutually exclusive state-mutating actions, and exactly the dispatched
one is invoked; an invocation that selects neither performs no state
mutation and exits with failure status, except the help/version
informational returns, which perform no state mutation and exit 0. -/
theorem action_selection (env : Env) :
    ((main env).enableCalled = true ↔ (main env).dispatched = some .CMD_ENABLE)
  ∧ ((main env).disableCalled = true ↔ (main env).dispatched = some .CMD_DISABLE)
  ∧ ¬((main env).enableCalled = true ∧ (main env).disableCalled = true)
  ∧ ((main env).dispatched = none →
      (main env).fs = env.fs ∧ (main env).enableCalled = false
      ∧ (main env).disableCalled = false
      ∧ ((main env).exitCode = 1
         ∨ ((main env).exitCode = 0 ∧ (main env).infoExit = true))) := by
  obtain ⟨-, hE, hD, -, hnone, -⟩ := main_cases env
  refine ⟨hE, hD, ?_, hnone⟩
  rintro ⟨he, hd⟩
  have h2 := hD.mp hd
  rw [hE.mp he] at h2
  exact absurd h2 (by decide)

/-- C9 witness: the amended theorem applied to the `--help` invocation. -/
theorem action_selection_witness :
    (main helpEnv).fs = helpEnv.fs ∧ (main helpEnv).enableCalled = false
  ∧ (main helpEnv).disableCalled = false
  ∧ ((main helpEnv).exitCode = 1
     ∨ ((main helpEnv).exitCode = 0 ∧ (main helpEnv).infoExit = true)) :=
  (action_selection helpEnv).2.2.2 (by decide)

/-- C10: the `assert(not_reached)` branch of the dispatch switch never
runs, and whenever the switch is reached the command is `CMD_ENABLE` or
`CMD_DISABLE`, the asserted condition `cmd > CMD_NULL && cmd < CMD_NEXT`
holds, and `ret` has been assigned before it determines the exit
status. -/
theorem dispatch_switch_exhaustive (env : Env) :
    (main env).notReachedHit = false
  ∧ ∀ c, (main env).dispatched = some c →
      0 < c.toNat ∧ c.toNat < 3 ∧ (main env).assertOk = true
      ∧ (main env).retAssigned = true
      ∧ (c = .CMD_ENABLE ∨ c = .CMD_DISABLE) := by
  refine ⟨(main_cases env).1, fun c hc => ?_⟩
  obtain ⟨hcc, hA, hR, -⟩ := (main_cases env).2.2.2.1 c hc
  rcases hcc with h | h <;> subst h
  · exact ⟨by decide, by decide, hA, hR, Or.inl rfl⟩
  · exact ⟨by decide, by decide, hA, hR, Or.inr rfl⟩

/-- C10 witness: a `--disable` invocation that reaches the dispatch
switch does so with `CMD_DISABLE`, in range, with `ret` assigned. -/
theorem dispatch_switch_exhaustive_witness :
    0 < Command.toNat .CMD_DISABLE ∧ Command.toNat .CMD_DISABLE < 3
  ∧ (main disableEnv).assertOk = true ∧ (main disableEnv).retAssigned = true
  ∧ (Command.CMD_DISABLE = Command.CMD_ENABLE
     ∨ Command.CMD_DISABLE = Command.CMD_DISABLE) :=
  (dispatch_switch_exhaustive disableEnv).2 .CMD_DISABLE (by decide)

/-- C5: `disable` is idempotent — a removal attempt that does not hit an
extrinsic error succeeds and leaves no state file, after which a second
`disable`, under any oracle, reports success on the already-absent file;
removing an absent file is success; and a removal failure other than
"file does not exist" makes `disable` return failure with the file
intact. -/
theorem disable_idempotent (fs : FS) (sp : String) (o2 : Bool) :
    ((disable true fs sp).1 = true
      ∧ fsGet (disable true fs sp).2 sp = none
      ∧ disable o2 (disable true fs sp).2 sp = (true, (disable true fs sp).2))
  ∧ (fsGet fs sp = none → disable o2 fs sp = (true, fs))
  ∧ ((fsGet fs sp).isSome = true → disable false fs sp = (false, fs)) := by
  cases h : fsGet fs sp with
  | none => simp [disable, h]
  | some f => simp [disable, h, fsGet_fsErase_self]

/-- C5 witness: removing alice's absent state file succeeds, and a
removal of an existing state file that hits an extrinsic error fails
and leaves the file. -/
theorem disable_idempotent_witness :
    disable true ([] : FS) (statePathStr "alice") = (true, [])
  ∧ disable false [(statePathStr "alice", secretFile)] (statePathStr "alice")
      = (false, [(statePathStr "alice", secretFile)]) :=
  ⟨(disable_idempotent [] (statePathStr "alice") true).2.1 rfl,
   (disable_idempotent [(statePathStr "alice", secretFile)] (statePathStr "alice")
      true).2.2 (by decide)⟩

/-- C6: the gate executes a prefix of the four protocol steps in order;
it succeeds exactly when all four PAM calls return success; and a failed
session close yields a failed gate even when the credential and account
checks succeeded. -/
theorem auth_gate_four_steps (o : PamOracle) :
    (∃ n, 1 ≤ n ∧ n ≤ 4 ∧ (authenticate o).2 = pamSeq.take n)
  ∧ ((authenticate o).1 = true ↔
      (o.startRet = 0 ∧ o.authRet = 0 ∧ o.acctRet = 0 ∧ o.endRet = 0))
  ∧ (o.startRet = 0 → o.authRet = 0 → o.acctRet = 0 → o.endRet ≠ 0 →
      (authenticate o).1 = false ∧ (authenticate o).2 = pamSeq) := by
  by_cases h1 : o.startRet = 0 <;> by_cases h2 : o.authRet = 0 <;>
    by_cases h3 : o.acctRet = 0 <;> by_cases h4 : o.endRet = 0 <;>
      simp [authenticate, pamSeq, h1, h2, h3, h4] <;>
        first
        | exact ⟨1, by decide, by decide, by decide⟩
        | exact ⟨2, by decide, by decide, by decide⟩
        | exact ⟨3, by decide, by decide, by decide⟩
        | exact ⟨4, by decide, by decide, by decide⟩

/-- C6 witness: all checks succeed but the session close returns 5 — the
gate fails after running all four steps. -/
theorem auth_gate_four_steps_witness :
    (authenticate ⟨0, 0, 0, 5⟩).1 = false
  ∧ (authenticate ⟨0, 0, 0, 5⟩).2 = pamSeq :=
  (auth_gate_four_steps ⟨0, 0, 0, 5⟩).2.2 rfl rfl rfl (by decide)

/-- C7 (code bug): the staging-name buffer is one byte too small for
every state path — `strlen(state_path) + 4` bytes are allocated, but the
string `state_path ++ ".new"` with its NUL terminator needs
`strlen(state_path) + 5`, so the terminator is written past the
allocation. -/
theorem staging_buffer_one_short :
    tmpBufAlloc (statePathStr "alice") < tmpBufNeeded (statePathStr "alice")
  ∧ ∀ sp : String, tmpBufNeeded sp = tmpBufAlloc sp + 1 := by
  constructor
  · decide
  · intro sp
    have h4 : (".new" : String).length = 4 := rfl
    simp [tmpBufNeeded, tmpBufAlloc, tmpName, String.length_append, h4]

/-- C8 counterexample: the resolver fails on the nonempty identity
"alice" when allocation fails, and succeeds on the empty identity, so
"fails only if the identity is empty" is false in both directions. -/
theorem resolver_failure_not_emptiness :
    get_state_path false "alice" = none ∧ ("alice" : String) ≠ ""
  ∧ get_state_path true "" = some (statePathStr "") := by decide

/-- C8 (amended): the resolver deterministically produces
`<state-root>/<identity>` by pure string construction, with an exactly
sized allocation; its only failure mode is allocation failure — the
identity is never inspected, so an empty identity is not rejected. -/
theorem resolver_pure_construction (ok : Bool) (u : String) :
    (ok = true → get_state_path ok u = some (GAUTH_STATEDIR ++ "/" ++ u))
  ∧ (get_state_path ok u = none ↔ ok = false)
  ∧ statePathBufSize u = (statePathStr u).length + 1 := by
  have h1 : ("/" : String).length = 1 := rfl
  cases ok <;>
    simp [get_state_path, statePathStr, statePathBufSize, String.length_append, h1]

/-- C8 witness: the amended theorem at identity "alice" with allocation
succeeding. -/
theorem resolver_pure_construction_witness :
    get_state_path true "alice" = some (GAUTH_STATEDIR ++ "/" ++ "alice") :=
  (resolver_pure_construction true "alice").1 rfl

/-- C2 (code bug): with a two-byte candidate and a first write that is
short (writes 1 byte, returns 1), `enable` reports success and installs
the truncated content `[7]` at the state path — not the candidate's
bytes `[7, 8]` — because the write result is compared only against -1.
The staging file is removed and the installed file carries the staging
file's owner and mode, as the claim says. -/
theorem install_short_write_truncates :
    (enable shortWriteOracle 1000 0 fsC2 (statePathStr "alice") "/tmp/cand2").1 = true
  ∧ fsGet (enable shortWriteOracle 1000 0 fsC2 (statePathStr "alice") "/tmp/cand2").2
      (statePathStr "alice") = some ⟨[7], 0, stagingMode, false⟩
  ∧ fsGet (enable shortWriteOracle 1000 0 fsC2 (statePathStr "alice") "/tmp/cand2").2
      (tmpName (statePathStr "alice")) = none
  ∧ twoByteFile.content ≠ [7] := by decide

/-- C3: a candidate whose final path component is a symlink, or whose
owner is not the invoking identity, or with any group/other permission
bit set, makes `enable` fail with the whole filesystem — in particular
the state path — exactly as it was, before any byte is copied. -/
theorem enable_rejects_insecure_candidate
    (o : EnableOracle) (uid euid : Nat) (fs : FS) (sp path : String) (f : FileObj)
    (hf : fsGet fs path = some f)
    (hbad : f.isSym = true ∨ f.uid ≠ uid ∨ f.mode &&& 63 ≠ 0) :
    enable o uid euid fs sp path = (false, fs) := by
  cases hm : o.mallocOk
  · simp [enable, hm]
  · rcases hbad with h | h | h
    · simp [enable, hm, hf, h]
    · cases hs : f.isSym
      case true => simp [enable, hm, hf, hs]
      case false =>
        cases hst : o.fstatOk
        case false => simp [enable, hm, hf, hs, hst]
        case true => simp [enable, hm, hf, hs, hst, h]
    · cases hs : f.isSym
      case true => simp [enable, hm, hf, hs]
      case false =>
        cases hst : o.fstatOk
        case false => simp [enable, hm, hf, hs, hst]
        case true =>
          by_cases hu : f.uid = uid
          case neg => simp [enable, hm, hf, hs, hst, hu]
          case pos => simp [enable, hm, hf, hs, hst, hu, h]

/-- C3 witness: a symlinked candidate is rejected and the filesystem is
returned unchanged. -/
theorem enable_rejects_insecure_candidate_witness :
    enable okOracle 1000 0 [("/tmp/ln", symFile)] (statePathStr "alice") "/tmp/ln"
      = (false, [("/tmp/ln", symFile)]) :=
  enable_rejects_insecure_candidate okOracle 1000 0 [("/tmp/ln", symFile)]
    (statePathStr "alice") "/tmp/ln" symFile (by decide) (Or.inl rfl)

/-- C4: when the copy loop fails with a read or write error, `enable`
returns failure; on every failing run the state path's entry (content or
absence) is preserved exactly; and the state path's entry changes only
on a run that returned success, which requires the rename to have
succeeded. -/
theorem install_atomic_on_failure
    (o : EnableOracle) (uid euid : Nat) (fs : FS) (sp path : String)
    (r : Bool) (fs2 : FS)
    (hE : enable o uid euid fs sp path = (r, fs2)) :
    (r = false → fsGet fs2 sp = fsGet fs sp)
  ∧ (∀ f, fsGet fs path = some f →
      (copyLoop o.copySteps f.content).1 = false → r = false)
  ∧ (fsGet fs2 sp ≠ fsGet fs sp → r = true ∧ o.renameOk = true) := by
  have h1 := enable_false_state o uid euid fs sp path
  have h2 := enable_true_shape o uid euid fs sp path
  rw [hE] at h1 h2
  refine ⟨h1, fun f hf hcp => ?_, fun hch => ?_⟩
  · cases hr : r
    · rfl
    · have := (h2 hr).2 f hf
      rw [hcp] at this
      exact absurd this (by decide)
  · cases hr : r
    · exact absurd (h1 hr) hch
    · exact ⟨rfl, (h2 hr).1⟩

/-- C4 witness: a read error in the first copy iteration leaves the state
path's entry unchanged (the staging remnant survives, the state path does
not exist before or after). -/
theorem install_atomic_on_failure_witness :
    fsGet fsC4out (statePathStr "alice") = fsGet fsC4 (statePathStr "alice") :=
  (install_atomic_on_failure readErrOracle 1000 0 fsC4 (statePathStr "alice")
    "/tmp/cand" false fsC4out (by decide)).1 rfl
